import Mathlib

/-!
Shallow embedding of the problem-discovery service (src/main.go).

The program is an HTTP front-end over the Codeforces problem-listing API:
four fetch functions (single tag / multi tag, each with an "only" variant
that filters by tag count), thin HTTP handlers, and a health endpoint.

Modelling decisions:
* Machine `int` fields become `Int`; `float64` (the `points` field, never
  computed with) becomes `Float`, carried opaquely.
* The effectful steps — `http.Get`, `io.ReadAll`, `json.Unmarshal`,
  `json.NewEncoder(w).Encode` — are modelled by an explicit environment
  `Env`: `httpGet` maps a URL to a transport outcome, `unmarshal` maps a
  response body to a decode outcome, `encodeJson` maps a problem list to
  an encode outcome.  Go `error` values are modelled as their `Error()`
  strings.  Note `http.Get` in Go returns an error only on transport
  failure; a non-2xx response is delivered as a normal response value,
  which the embedding mirrors by carrying the status code in
  `HttpOutcome.response`.
* The call `sort.Slice(ps, less)` (src/main.go:88-90 and 138-140) is
  modelled at two levels.  The pipeline definitions below use
  `sortProblemsByRating`, `List.mergeSort` with the rating order, which
  realises the documented contract of `sort.Slice`: the result is a
  permutation of the input ordered by the comparison.  `sort.Slice`
  explicitly does NOT guarantee stability; the concrete unstable stdlib
  algorithm (pdqsort, Go 1.19+, src/sort/zsortfunc.go) is embedded
  separately in namespace `GoSort` below, and is used to settle the
  stability question.
-/

namespace ProblemSvc

/-- Problem mirrors the struct at src/main.go:44-53: a problem object from
the Codeforces response. -/
structure Problem where
  contestId : Int
  problemsetName : String
  index : String
  name : String
  type : String
  points : Float
  rating : Int
  tags : List String
deriving Inhabited

/-- CodeforcesResult mirrors the anonymous `result` struct at
src/main.go:58-60. -/
structure CodeforcesResult where
  problems : List Problem
deriving Inhabited

/-- CodeforcesResponse mirrors the struct at src/main.go:56-61: an envelope
with a `status` string and a `result` holding the problem list. -/
structure CodeforcesResponse where
  status : String
  result : CodeforcesResult
deriving Inhabited

/-- Constant from src/main.go:29. -/
def CODEFORCES_BASE_URL : String := "https://codeforces.com/api/"

/-- Constant from src/main.go:32. -/
def PROBLEMSET_METHOD : String := "problemset.problems"

/-- Tag list from src/main.go:36-41 (duplicates as in the source). -/
def CodeForcesTags : List String :=
  ["dp", "greedy", "math", "geometry", "string",
   "data structures", "trees", "graphs", "sorting", "binary search",
   "hashing", "bitmasks", "dp", "trees", "graphs", "sorting",
   "binary search", "hashing", "bitmasks"]

/-- Outcome of `http.Get` followed by `io.ReadAll` (src/main.go:67-78):
either the GET itself fails (transport error), or a response arrives but
reading its body fails, or a response with a status code and a fully read
body is obtained.  Go's `http.Get` does not turn non-2xx status codes into
errors; they arrive as ordinary responses. -/
inductive HttpOutcome where
  | transportError (err : String)
  | readError (statusCode : Nat) (err : String)
  | response (statusCode : Nat) (body : String)

/-- Environment bundling the effectful library calls the program makes:
the HTTP transport, `json.Unmarshal` into `CodeforcesResponse`, and
`json.NewEncoder(w).Encode` of a problem list. -/
structure Env where
  httpGet : String → HttpOutcome
  unmarshal : String → Except String CodeforcesResponse
  encodeJson : List Problem → Except String String

/-- Boolean rating comparison `≤`, the sortedness order realised by the
`sort.Slice` call with less function `Rating i < Rating j`. -/
def ratingLe (p q : Problem) : Bool := decide (p.rating ≤ q.rating)

/-- Models `sort.Slice(problems, less by rating)` at src/main.go:88-90 and
138-140 by the documented `sort.Slice` contract: the result is a
permutation of the input, ordered ascending by rating.  (`sort.Slice`
guarantees sortedness, not stability; see namespace `GoSort` for the
concrete stdlib algorithm.) -/
def sortProblemsByRating (l : List Problem) : List Problem := l.mergeSort ratingLe

/-- URL built at src/main.go:66: base url, method, then `?tags=` and the
tag verbatim. -/
def problemsURLWithTag (tag : String) : String :=
  CODEFORCES_BASE_URL ++ PROBLEMSET_METHOD ++ "?tags=" ++ tag

/-- URL built at src/main.go:116: base url, method, `?tags=`, then the
tags joined with `;` (Go `strings.Join(tags, ";")`). -/
def problemsURLWithTags (tags : List String) : String :=
  CODEFORCES_BASE_URL ++ PROBLEMSET_METHOD ++ "?tags=" ++ String.intercalate ";" tags

/-- Embeds fetchCodeforcesProblemSetWithTag (src/main.go:65-93): GET the
URL for the tag, read the body, unmarshal, sort by rating.  Each failing
step returns the underlying error; the response status code is bound but
never inspected (src/main.go never checks `response.StatusCode`). -/
def fetchCodeforcesProblemSetWithTag (env : Env) (tag : String) :
    Except String (List Problem) :=
  match env.httpGet (problemsURLWithTag tag) with
  | .transportError err => .error err
  | .readError _statusCode err => .error err
  | .response _statusCode body =>
    match env.unmarshal body with
    | .error err => .error err
    | .ok codeforcesResponse =>
      .ok (sortProblemsByRating codeforcesResponse.result.problems)

/-- Embeds fetchCodeforcesProblemSetWithTagOnly (src/main.go:97-111):
delegate to the single-tag fetch, then keep exactly the problems with one
tag (the append loop at src/main.go:104-109 is `List.filter`, preserving
order). -/
def fetchCodeforcesProblemSetWithTagOnly (env : Env) (tag : String) :
    Except String (List Problem) :=
  match fetchCodeforcesProblemSetWithTag env tag with
  | .error err => .error err
  | .ok allProblems =>
    .ok (allProblems.filter (fun problem => problem.tags.length == 1))

/-- Embeds fetchCodeforcesProblemSetWithTags (src/main.go:115-143): same
pipeline as the single-tag fetch, with the tags joined by `;` in the URL. -/
def fetchCodeforcesProblemSetWithTags (env : Env) (tags : List String) :
    Except String (List Problem) :=
  match env.httpGet (problemsURLWithTags tags) with
  | .transportError err => .error err
  | .readError _statusCode err => .error err
  | .response _statusCode body =>
    match env.unmarshal body with
    | .error err => .error err
    | .ok codeforcesResponse =>
      .ok (sortProblemsByRating codeforcesResponse.result.problems)

/-- Embeds fetchCodeforcesProblemSetWithTagsOnly (src/main.go:147-161):
delegate to the multi-tag fetch, then keep exactly the problems whose tag
count equals the number of requested tags (src/main.go:154-159). -/
def fetchCodeforcesProblemSetWithTagsOnly (env : Env) (tags : List String) :
    Except String (List Problem) :=
  match fetchCodeforcesProblemSetWithTags env tags with
  | .error err => .error err
  | .ok allProblems =>
    .ok (allProblems.filter (fun problem => problem.tags.length == tags.length))

/-- An incoming HTTP request, reduced to what the handlers consume:
`r.URL.Query().Get(key)`, which in Go returns `""` for an absent key. -/
structure Request where
  queryGet : String → String

/-- The observable response a handler writes: effective status code and
body. -/
structure HttpResponseModel where
  statusCode : Nat
  body : String
deriving DecidableEq

/-- Models Go `http.Error(w, msg, http.StatusInternalServerError)`:
status 500, body the message followed by a newline (http.Error writes the
message with `fmt.Fprintln`). -/
def httpError (err : String) : HttpResponseModel :=
  { statusCode := 500, body := err ++ "\n" }

/-- Embeds problemsByTagHandler (src/main.go:166-178): read the `tag`
query parameter, fetch, answer 500 with the error text on failure, else
encode the problems as JSON.  (The trailing `w.WriteHeader(http.StatusOK)`
after a successful `Encode` is a no-op in Go — the first body write
already committed status 200 — so the success status is 200.) -/
def problemsByTagHandler (env : Env) (r : Request) : HttpResponseModel :=
  let tag := r.queryGet "tag"
  match fetchCodeforcesProblemSetWithTag env tag with
  | .error err => httpError err
  | .ok problems =>
    match env.encodeJson problems with
    | .error err => httpError err
    | .ok encoded => { statusCode := 200, body := encoded }

/-- Embeds problemsByTagsHandler (src/main.go:181-193): read `tags`, split
on `,` (Go `strings.Split`, which yields `[""]` on the empty string, as
does `String.splitOn`), fetch, and answer as above. -/
def problemsByTagsHandler (env : Env) (r : Request) : HttpResponseModel :=
  let tags := r.queryGet "tags"
  match fetchCodeforcesProblemSetWithTags env (tags.splitOn ",") with
  | .error err => httpError err
  | .ok problems =>
    match env.encodeJson problems with
    | .error err => httpError err
    | .ok encoded => { statusCode := 200, body := encoded }

/-- Embeds problemsByTagOnlyHandler (src/main.go:196-208). -/
def problemsByTagOnlyHandler (env : Env) (r : Request) : HttpResponseModel :=
  let tag := r.queryGet "tag"
  match fetchCodeforcesProblemSetWithTagOnly env tag with
  | .error err => httpError err
  | .ok problems =>
    match env.encodeJson problems with
    | .error err => httpError err
    | .ok encoded => { statusCode := 200, body := encoded }

/-- Embeds problemsByTagsOnlyHandler (src/main.go:211-223). -/
def problemsByTagsOnlyHandler (env : Env) (r : Request) : HttpResponseModel :=
  let tags := r.queryGet "tags"
  match fetchCodeforcesProblemSetWithTagsOnly env (tags.splitOn ",") with
  | .error err => httpError err
  | .ok problems =>
    match env.encodeJson problems with
    | .error err => httpError err
    | .ok encoded => { statusCode := 200, body := encoded }

/-- Embeds healthHandler (src/main.go:258-261): unconditionally status 200
with body `ok`; the request is ignored (`_ *http.Request`) and no
environment is consulted. -/
def healthHandler (_ : Request) : HttpResponseModel :=
  { statusCode := 200, body := "ok" }

end ProblemSvc

/-!
Faithful executable embedding of Go's `sort.Slice` (the stdlib pattern
defeating quicksort of Go 1.19+, `src/sort/zsortfunc.go`), the function
the program calls at src/main.go:88-90 and src/main.go:138-140.  Go ints
are `Nat` here; every subtraction below is guarded by the same bounds the
Go code maintains, so Nat truncation never diverges from Go int
arithmetic.  Loops become fuel recursion with fuel visibly larger than
the iteration count.  This embedding is used to settle the stability
question: `sort.Slice` is documented as not guaranteeing stability, and
this model exhibits a concrete unstable run.
-/

namespace GoSort

variable {α : Type} [Inhabited α]

/-- Element read `data[i]` (out of bounds defaults; all uses are in
bounds). -/
def aget (data : Array α) (i : Nat) : α := data.getD i default

/-- Go `data.Swap(i, j)`; out-of-bounds indices leave the array unchanged
(all uses are in bounds). -/
def aswap (data : Array α) (i j : Nat) : Array α :=
  match data.get? i, data.get? j with
  | some vi, some vj => (data.setD i vj).setD j vi
  | _, _ => data

/-- Go `data.Less(i, j)`. -/
def lessIdx (less : α → α → Bool) (data : Array α) (i j : Nat) : Bool :=
  less (aget data i) (aget data j)

/-- Inner loop of Go insertionSort_func: `for j := i; j > a && Less(j, j-1);
j-- Swap(j, j-1)`. -/
def insertionSortMove (less : α → α → Bool) (a : Nat) : Nat → Array α → Array α
  | 0, data => data
  | j+1, data =>
    if a < j+1 ∧ lessIdx less data (j+1) j = true then
      insertionSortMove less a j (aswap data (j+1) j)
    else data

/-- Outer loop of Go insertionSort_func over `i = a+1 .. b-1`. -/
def insertionSortLoop (less : α → α → Bool) (a b : Nat) : Nat → Nat → Array α → Array α
  | _, 0, data => data
  | i, fuel+1, data =>
    if i < b then insertionSortLoop less a b (i+1) fuel (insertionSortMove less a i data)
    else data

/-- Go insertionSort_func: sorts data[a:b]. -/
def insertionSort (less : α → α → Bool) (data : Array α) (a b : Nat) : Array α :=
  insertionSortLoop less a b (a+1) (b - a) data

/-- Go siftDown_func loop: walk the max-heap path from `root` below `hi`,
offset by `first`. -/
def siftDownLoop (less : α → α → Bool) (hi first : Nat) : Nat → Nat → Array α → Array α
  | 0, _, data => data
  | fuel+1, root, data =>
    let child := 2*root + 1
    if child ≥ hi then data
    else
      let child :=
        if child+1 < hi ∧ lessIdx less data (first+child) (first+child+1) = true then child+1
        else child
      if lessIdx less data (first+root) (first+child) = true then
        siftDownLoop less hi first fuel child (aswap data (first+root) (first+child))
      else data

/-- Go siftDown_func. -/
def siftDown (less : α → α → Bool) (data : Array α) (lo hi first : Nat) : Array α :=
  siftDownLoop less hi first (hi+1) lo data

/-- Heap-building phase of Go heapSort_func:
`for i := (hi-1)/2; i >= 0; i--  siftDown(data, i, hi, first)`; the fuel
argument is the iteration count, indices descend. -/
def heapSortBuild (less : α → α → Bool) (hi first : Nat) : Nat → Array α → Array α
  | 0, data => data
  | i+1, data => heapSortBuild less hi first i (siftDown less data i hi first)

/-- Pop phase of Go heapSort_func:
`for i := hi-1; i >= 0; i--  Swap(first, first+i); siftDown(data, 0, i, first)`. -/
def heapSortPop (less : α → α → Bool) (first : Nat) : Nat → Array α → Array α
  | 0, data => data
  | i+1, data =>
    heapSortPop less first i (siftDown less (aswap data first (first+i)) 0 i first)

/-- Go heapSort_func on data[a:b]. -/
def heapSort (less : α → α → Bool) (data : Array α) (a b : Nat) : Array α :=
  let hi := b - a
  heapSortPop less a hi (heapSortBuild less hi a ((hi-1)/2 + 1) data)

/-- Go reverseRange_func loop. -/
def reverseRangeLoop : Nat → Nat → Nat → Array α → Array α
  | 0, _, _, data => data
  | fuel+1, i, j, data =>
    if i < j then reverseRangeLoop fuel (i+1) (j-1) (aswap data i j) else data

/-- Go reverseRange_func on data[a:b]. -/
def reverseRange (data : Array α) (a b : Nat) : Array α :=
  reverseRangeLoop (b - a) a (b-1) data

/-- Go bits.Len on an unsigned value: number of bits required. -/
def bitsLen (n : Nat) : Nat := if n = 0 then 0 else Nat.log2 n + 1

/-- One step of the Marsaglia 64-bit xorshift generator used by the
stdlib sort (shift counts 13, 7, 17), state kept modulo 2^64. -/
def xorshiftNext (r : Nat) : Nat :=
  let r := (r ^^^ (r <<< 13)) % 2^64
  let r := (r ^^^ (r >>> 7)) % 2^64
  (r ^^^ (r <<< 17)) % 2^64

/-- Go breakPatterns_func: swap three positions around the middle of
data[a:b] with pseudo-random positions; the generator is seeded with the
range length, so the procedure is deterministic. -/
def breakPatterns (data : Array α) (a b : Nat) : Array α :=
  let length := b - a
  if length ≥ 8 then
    let modulus := 1 <<< bitsLen length
    let idx := a + (length/4)*2 - 1
    let swapOther := fun (st : Nat × Array α) (i : Nat) =>
      let r := xorshiftNext st.1
      let other := r &&& (modulus - 1)
      let other := if other ≥ length then other - length else other
      (r, aswap st.2 (idx - 1 + i) (a + other))
    let st := swapOther (length, data) 0
    let st := swapOther st 1
    (swapOther st 2).2
  else data

/-- Go order2_func: order two indices by the values they point to,
counting a swap; the data is only read. -/
def order2 (less : α → α → Bool) (data : Array α) (a b swaps : Nat) : Nat × Nat × Nat :=
  if lessIdx less data b a = true then (b, a, swaps+1) else (a, b, swaps)

/-- Go median_func: index of the median of the values at three indices,
with the running swap count. -/
def median (less : α → α → Bool) (data : Array α) (a b c swaps : Nat) : Nat × Nat :=
  let (a1, b1, s1) := order2 less data a b swaps
  let (b2, _, s2) := order2 less data b1 c s1
  let (_, b3, s3) := order2 less data a1 b2 s2
  (b3, s3)

/-- Go medianAdjacent_func: median of positions a-1, a, a+1. -/
def medianAdjacent (less : α → α → Bool) (data : Array α) (a swaps : Nat) : Nat × Nat :=
  median less data (a-1) a (a+1) swaps

/-- Go sortedHint. -/
inductive SortedHint where
  | increasing
  | decreasing
  | unknownHint
deriving DecidableEq

/-- Go choosePivot_func: candidates at l/4, l/2, 3l/4 (ninther refinement
from length 50), hint from the swap count (maxSwaps = 12). -/
def choosePivot (less : α → α → Bool) (data : Array α) (a b : Nat) : Nat × SortedHint :=
  let l := b - a
  let i := a + l/4*1
  let j := a + l/4*2
  let k := a + l/4*3
  if l ≥ 8 then
    let (i, j, k, swaps) :=
      if l ≥ 50 then
        let (i1, s1) := medianAdjacent less data i 0
        let (j1, s2) := medianAdjacent less data j s1
        let (k1, s3) := medianAdjacent less data k s2
        (i1, j1, k1, s3)
      else (i, j, k, 0)
    let (j2, swaps) := median less data i j k swaps
    if swaps = 0 then (j2, .increasing)
    else if swaps = 12 then (j2, .decreasing)
    else (j2, .unknownHint)
  else (j, .increasing)

/-- Forward scan of Go partialInsertionSort_func: advance i while i < b
and data[i] is not less than data[i-1]. -/
def scanSortedFrom (less : α → α → Bool) (b : Nat) : Nat → Nat → Array α → Nat
  | 0, i, _ => i
  | fuel+1, i, data =>
    if i < b ∧ lessIdx less data i (i-1) = false then scanSortedFrom less b fuel (i+1) data
    else i

/-- Left-shifting inner loop of Go partialInsertionSort_func:
`for j := i-1; j >= 1; j--  if !Less(j, j-1) break; Swap(j, j-1)`; the
argument is Go's j. -/
def shiftLeftLoop (less : α → α → Bool) : Nat → Array α → Array α
  | 0, data => data
  | j+1, data =>
    if lessIdx less data (j+1) j = true then shiftLeftLoop less j (aswap data (j+1) j)
    else data

/-- Right-shifting inner loop of Go partialInsertionSort_func:
`for j := i+1; j < b; j++  if !Less(j, j-1) break; Swap(j, j-1)`. -/
def shiftRightLoop (less : α → α → Bool) (b : Nat) : Nat → Nat → Array α → Array α
  | 0, _, data => data
  | fuel+1, j, data =>
    if j < b ∧ lessIdx less data j (j-1) = true then
      shiftRightLoop less b fuel (j+1) (aswap data j (j-1))
    else data

/-- Outer loop of Go partialInsertionSort_func (maxSteps = 5,
shortestShifting = 50): scan for the first out-of-order adjacent pair,
report sorted when none is left, give up without touching short ranges,
else fix the pair and shift it outward. -/
def limitedInsertionSortSteps (less : α → α → Bool) (a b : Nat) :
    Nat → Nat → Array α → Bool × Array α
  | 0, _, data => (false, data)
  | steps+1, i, data =>
    let i := scanSortedFrom less b (b - i + 1) i data
    if i = b then (true, data)
    else if b - a < 50 then (false, data)
    else
      let data := aswap data i (i-1)
      let data := if i - a ≥ 2 then shiftLeftLoop less (i-1) data else data
      let data := if b - i ≥ 2 then shiftRightLoop less b (b - (i+1) + 1) (i+1) data else data
      limitedInsertionSortSteps less a b steps i data

/-- Go partialInsertionSort_func: (whether data[a:b] ended up sorted,
resulting array). -/
def limitedInsertionSort (less : α → α → Bool) (data : Array α) (a b : Nat) :
    Bool × Array α :=
  limitedInsertionSortSteps less a b 5 (a+1) data

/-- Advancing scan of Go partition_func: `for i <= j && data.Less(i, a)
i++`. -/
def partitionAdvanceI (less : α → α → Bool) (data : Array α) (a j : Nat) : Nat → Nat → Nat
  | 0, i => i
  | fuel+1, i =>
    if i ≤ j ∧ lessIdx less data i a = true then partitionAdvanceI less data a j fuel (i+1)
    else i

/-- Retreating scan of Go partition_func: `for i <= j && !data.Less(j, a)
j--`. -/
def partitionRetreatJ (less : α → α → Bool) (data : Array α) (a i : Nat) : Nat → Nat → Nat
  | 0, j => j
  | fuel+1, j =>
    if i ≤ j ∧ lessIdx less data j a = false then partitionRetreatJ less data a i fuel (j-1)
    else j

/-- Main loop of Go partition_func after the first crossing swap. -/
def partitionLoop (less : α → α → Bool) (a b : Nat) :
    Nat → Nat → Nat → Array α → Nat × Array α
  | 0, _, j, data => (j, data)
  | fuel+1, i, j, data =>
    let i := partitionAdvanceI less data a j (b+1) i
    let j := partitionRetreatJ less data a i (b+1) j
    if i > j then (j, data)
    else partitionLoop less a b fuel (i+1) (j-1) (aswap data i j)

/-- Go partition_func: Hoare partition of data[a:b] around data[pivot]
(moved to position a first); returns (new pivot position, whether the
range was already partitioned, array). -/
def partitionGo (less : α → α → Bool) (data : Array α) (a b pivot : Nat) :
    Nat × Bool × Array α :=
  let data := aswap data a pivot
  let i := partitionAdvanceI less data a (b-1) (b+1) (a+1)
  let j := partitionRetreatJ less data a i (b+1) (b-1)
  if i > j then (j, true, aswap data j a)
  else
    let data := aswap data i j
    let (j2, data) := partitionLoop less a b (b+1) (i+1) (j-1) data
    (j2, false, aswap data j2 a)

/-- Advancing scan of Go partitionEqual_func: `for i <= j &&
!data.Less(a, i)  i++`. -/
def partitionEqualAdvanceI (less : α → α → Bool) (data : Array α) (a j : Nat) :
    Nat → Nat → Nat
  | 0, i => i
  | fuel+1, i =>
    if i ≤ j ∧ lessIdx less data a i = false then
      partitionEqualAdvanceI less data a j fuel (i+1)
    else i

/-- Retreating scan of Go partitionEqual_func: `for i <= j &&
data.Less(a, j)  j--`. -/
def partitionEqualRetreatJ (less : α → α → Bool) (data : Array α) (a i : Nat) :
    Nat → Nat → Nat
  | 0, j => j
  | fuel+1, j =>
    if i ≤ j ∧ lessIdx less data a j = true then
      partitionEqualRetreatJ less data a i fuel (j-1)
    else j

/-- Loop of Go partitionEqual_func. -/
def partitionEqualLoop (less : α → α → Bool) (a b : Nat) :
    Nat → Nat → Nat → Array α → Nat × Array α
  | 0, i, _, data => (i, data)
  | fuel+1, i, j, data =>
    let i := partitionEqualAdvanceI less data a j (b+1) i
    let j := partitionEqualRetreatJ less data a i (b+1) j
    if i > j then (i, data)
    else partitionEqualLoop less a b fuel (i+1) (j-1) (aswap data i j)

/-- Go partitionEqual_func: gathers elements equal to data[pivot] at the
front of data[a:b]; returns (first index of the strictly-greater part,
array). -/
def partitionEqualGo (less : α → α → Bool) (data : Array α) (a b pivot : Nat) :
    Nat × Array α :=
  let data := aswap data a pivot
  partitionEqualLoop less a b (b+1) (a+1) (b-1) data

/-- Go pdqsort_func (src/sort/zsortfunc.go, Go 1.19+).  The outer `for`
loop and the recursion on the shorter side become fuel recursion; every
recursive call and every loop continuation strictly shrinks the range, so
the entry fuel n+1 is never exhausted.  maxInsertion = 12. -/
def pdqsortLoop (less : α → α → Bool) :
    Nat → Array α → Nat → Nat → Nat → Bool → Bool → Array α
  | 0, data, _, _, _, _, _ => data
  | fuel+1, data, a, b, limit, wasBalanced, wasPartitioned =>
    let length := b - a
    if length ≤ 12 then insertionSort less data a b
    else if limit = 0 then heapSort less data a b
    else
      let (data, limit) :=
        if wasBalanced then (data, limit) else (breakPatterns data a b, limit - 1)
      let (pivot, hint) := choosePivot less data a b
      let (data, pivot, hint) :=
        if hint = SortedHint.decreasing then
          (reverseRange data a b, (b-1) - (pivot - a), SortedHint.increasing)
        else (data, pivot, hint)
      let tried :=
        if wasBalanced ∧ wasPartitioned ∧ hint = SortedHint.increasing then
          limitedInsertionSort less data a b
        else (false, data)
      if tried.1 then tried.2
      else
        let data := tried.2
        if 0 < a ∧ lessIdx less data (a-1) pivot = false then
          let (mid, data) := partitionEqualGo less data a b pivot
          pdqsortLoop less fuel data mid b limit wasBalanced wasPartitioned
        else
          let (mid, alreadyPartitioned, data) := partitionGo less data a b pivot
          let leftLen := mid - a
          let rightLen := b - mid
          let wasBalanced := decide (length / 8 ≤ Nat.min leftLen rightLen)
          if leftLen < rightLen then
            let data := pdqsortLoop less fuel data a mid limit true true
            pdqsortLoop less fuel data (mid+1) b limit wasBalanced alreadyPartitioned
          else
            let data := pdqsortLoop less fuel data (mid+1) b limit true true
            pdqsortLoop less fuel data a mid limit wasBalanced alreadyPartitioned

/-- Go sort.Slice on a list: pdqsort over the whole array with
limit = bits.Len(n), initial wasBalanced = wasPartitioned = true. -/
def sortSliceGo (less : α → α → Bool) (l : List α) : List α :=
  let data := l.toArray
  let n := data.size
  (pdqsortLoop less (n+1) data 0 n (bitsLen n) true true).toList

end GoSort

namespace ProblemSvc

/-- Boolean strict rating comparison: the literal less function the
program passes to sort.Slice (src/main.go:89 and 139). -/
def ratingLt (p q : Problem) : Bool := decide (p.rating < q.rating)

/-- The sort the compiled program concretely performs on a fetched
problem list: Go sort.Slice (pdqsort) with the rating less function. -/
def sortSliceByRating (l : List Problem) : List Problem :=
  GoSort.sortSliceGo ratingLt l

/-- Position of the first problem with the given name. -/
def idxOfName (l : List Problem) (n : String) : Nat :=
  l.findIdx (fun p => p.name == n)

/-- Statement that ties are broken stably: any two problems with equal
rating keep their upstream relative order in the output (problems
identified here by their unique names). -/
def tiesStable (input output : List Problem) : Prop :=
  ∀ i j : Fin input.length, i.val < j.val →
    (input.get i).rating = (input.get j).rating →
    idxOfName output (input.get i).name < idxOfName output (input.get j).name

/-- Stability of a concrete run is decidable. -/
instance (input output : List Problem) : Decidable (tiesStable input output) :=
  inferInstanceAs (Decidable (∀ i j : Fin input.length, i.val < j.val →
    (input.get i).rating = (input.get j).rating →
    idxOfName output (input.get i).name < idxOfName output (input.get j).name))

/-- Problem carrying only the fields relevant to sorting (rating) and a
distinguishing name. -/
def mkProblem (name : String) (rating : Int) : Problem :=
  { contestId := 1, problemsetName := "", index := "A", name := name,
    type := "PROGRAMMING", points := 0.0, rating := rating, tags := ["dp"] }

/-- Thirteen decoded upstream problems, twelve of rating 2000 followed by
one of rating 1000: the smallest shape on which sort.Slice leaves the
(stable) insertion-sort regime, as pdqsort insertion-sorts only ranges of
at most 12 elements. -/
def c4input : List Problem :=
  [mkProblem "a" 2000, mkProblem "b" 2000, mkProblem "c" 2000,
   mkProblem "d" 2000, mkProblem "e" 2000, mkProblem "f" 2000,
   mkProblem "g" 2000, mkProblem "h" 2000, mkProblem "i" 2000,
   mkProblem "j" 2000, mkProblem "k" 2000, mkProblem "l" 2000,
   mkProblem "m" 1000]

/-- What sort.Slice concretely does to c4input (pdqsort: swap the pivot
position 6 to the front, one crossing swap, the final pivot swap, then a
stable insertion sort of the right part): the ties are visibly reordered,
e.g. problem g now precedes problem a. -/
def c4output : List Problem :=
  [mkProblem "m" 1000, mkProblem "g" 2000, mkProblem "c" 2000,
   mkProblem "d" 2000, mkProblem "e" 2000, mkProblem "f" 2000,
   mkProblem "a" 2000, mkProblem "h" 2000, mkProblem "i" 2000,
   mkProblem "j" 2000, mkProblem "k" 2000, mkProblem "l" 2000,
   mkProblem "b" 2000]

/-- Witness problem with a single tag that does NOT contain the tag the
witnesses request (`dp`), tag count 1. -/
def wp900 : Problem :=
  { contestId := 2, problemsetName := "", index := "B", name := "p900",
    type := "PROGRAMMING", points := 500.0, rating := 900, tags := ["math"] }

/-- Witness problem with two tags, rating 1200. -/
def wp1200 : Problem :=
  { contestId := 1, problemsetName := "", index := "A", name := "p1200",
    type := "PROGRAMMING", points := 0.0, rating := 1200, tags := ["greedy", "math"] }

/-- Witness problem with one tag, rating 1600. -/
def wp1600 : Problem :=
  { contestId := 3, problemsetName := "", index := "C", name := "p1600",
    type := "PROGRAMMING", points := 0.0, rating := 1600, tags := ["string"] }

/-- Decoded upstream list used by the witness environments: ratings out
of order, tag counts 2, 1, 1. -/
def wProblems : List Problem := [wp1200, wp900, wp1600]

/-- Healthy witness environment: every URL yields a 200 response whose
body decodes to an OK envelope holding wProblems; encoding succeeds. -/
def envOk : Env :=
  { httpGet := fun _ => .response 200 "body-ok"
    unmarshal := fun _ => .ok { status := "OK", result := { problems := wProblems } }
    encodeJson := fun _ => .ok "[json]" }

/-- Variant of envOk whose decoded envelope has status FAILED and a
different body string, but the same result payload. -/
def envOkFailedStatus : Env :=
  { httpGet := fun _ => .response 200 "body-failed-status"
    unmarshal := fun _ => .ok { status := "FAILED", result := { problems := wProblems } }
    encodeJson := fun _ => .ok "[json]" }

/-- Environment whose transport always fails. -/
def envDown : Env :=
  { httpGet := fun _ => .transportError "dial tcp: connection refused"
    unmarshal := fun _ => .error "unreachable"
    encodeJson := fun _ => .ok "[json]" }

/-- Environment of an upstream answering 400 (non-2xx) with a body that
still decodes (as the real API does: a JSON object with status FAILED and
no problems decodes into CodeforcesResponse with an empty list). -/
def env400 : Env :=
  { httpGet := fun _ => .response 400 "body-400"
    unmarshal := fun _ => .ok { status := "FAILED", result := { problems := [] } }
    encodeJson := fun _ => .ok "[]" }

/-- Request whose every query parameter reads `dp`. -/
def reqDp : Request := { queryGet := fun _ => "dp" }

end ProblemSvc

namespace ProblemSvc

/-- The rating order is transitive (hypothesis of sorted_mergeSort). -/
theorem ratingLe_trans (a b c : Problem) : ratingLe a b → ratingLe b c → ratingLe a c := by
  simp only [ratingLe, decide_eq_true_eq]
  exact fun h1 h2 => le_trans h1 h2

/-- The rating order is total (hypothesis of sorted_mergeSort). -/
theorem ratingLe_total (a b : Problem) : ratingLe a b || ratingLe b a := by
  simp only [ratingLe, Bool.or_eq_true, decide_eq_true_eq]
  exact le_total a.rating b.rating

/-- The sort stage output is pairwise ordered by ascending rating. -/
theorem sortProblemsByRating_pairwise (l : List Problem) :
    (sortProblemsByRating l).Pairwise (fun p q => p.rating ≤ q.rating) := by
  have h := List.sorted_mergeSort ratingLe_trans ratingLe_total l
  exact h.imp (fun hab => by simpa [ratingLe] using hab)

/-- The sort stage only permutes: membership is preserved. -/
theorem mem_sortProblemsByRating {p : Problem} {l : List Problem} :
    p ∈ sortProblemsByRating l ↔ p ∈ l := List.mem_mergeSort

/-- Inversion of a successful single-tag fetch: a response arrived for
the single-tag URL, its body decoded, and the result is the decoded
problem list sorted by rating. -/
theorem fetchWithTag_ok (env : Env) (tag : String) (ps : List Problem)
    (h : fetchCodeforcesProblemSetWithTag env tag = Except.ok ps) :
    ∃ st body cr, env.httpGet (problemsURLWithTag tag) = HttpOutcome.response st body ∧
      env.unmarshal body = Except.ok cr ∧ ps = sortProblemsByRating cr.result.problems := by
  cases hg : env.httpGet (problemsURLWithTag tag) with
  | transportError e => simp [fetchCodeforcesProblemSetWithTag, hg] at h
  | readError st e => simp [fetchCodeforcesProblemSetWithTag, hg] at h
  | response st body =>
    cases hu : env.unmarshal body with
    | error e => simp [fetchCodeforcesProblemSetWithTag, hg, hu] at h
    | ok cr =>
      simp [fetchCodeforcesProblemSetWithTag, hg, hu] at h
      exact ⟨st, body, cr, rfl, hu, h.symm⟩

/-- Inversion of a successful multi-tag fetch. -/
theorem fetchWithTags_ok (env : Env) (tags : List String) (ps : List Problem)
    (h : fetchCodeforcesProblemSetWithTags env tags = Except.ok ps) :
    ∃ st body cr, env.httpGet (problemsURLWithTags tags) = HttpOutcome.response st body ∧
      env.unmarshal body = Except.ok cr ∧ ps = sortProblemsByRating cr.result.problems := by
  cases hg : env.httpGet (problemsURLWithTags tags) with
  | transportError e => simp [fetchCodeforcesProblemSetWithTags, hg] at h
  | readError st e => simp [fetchCodeforcesProblemSetWithTags, hg] at h
  | response st body =>
    cases hu : env.unmarshal body with
    | error e => simp [fetchCodeforcesProblemSetWithTags, hg, hu] at h
    | ok cr =>
      simp [fetchCodeforcesProblemSetWithTags, hg, hu] at h
      exact ⟨st, body, cr, rfl, hu, h.symm⟩

/-- Evaluation of the single-tag fetch from a response and a decode. -/
theorem fetchWithTag_eval (env : Env) (tag : String) (st : Nat) (body : String)
    (cr : CodeforcesResponse)
    (hg : env.httpGet (problemsURLWithTag tag) = HttpOutcome.response st body)
    (hu : env.unmarshal body = Except.ok cr) :
    fetchCodeforcesProblemSetWithTag env tag =
      Except.ok (sortProblemsByRating cr.result.problems) := by
  simp [fetchCodeforcesProblemSetWithTag, hg, hu]

/-- Evaluation of the multi-tag fetch from a response and a decode. -/
theorem fetchWithTags_eval (env : Env) (tags : List String) (st : Nat) (body : String)
    (cr : CodeforcesResponse)
    (hg : env.httpGet (problemsURLWithTags tags) = HttpOutcome.response st body)
    (hu : env.unmarshal body = Except.ok cr) :
    fetchCodeforcesProblemSetWithTags env tags =
      Except.ok (sortProblemsByRating cr.result.problems) := by
  simp [fetchCodeforcesProblemSetWithTags, hg, hu]

/-- C1: every successful fetch, single-tag or multi-tag, returns a list
sorted by rating ascending: pairwise, and in index form, for all i < j
the rating at i is at most the rating at j. -/
theorem c1_fetch_sorted_by_rating (env : Env) (tag : String) (tags : List String)
    (ps qs : List Problem)
    (h1 : fetchCodeforcesProblemSetWithTag env tag = Except.ok ps)
    (h2 : fetchCodeforcesProblemSetWithTags env tags = Except.ok qs) :
    (ps.Pairwise (fun p q => p.rating ≤ q.rating) ∧
      ∀ i j : Fin ps.length, i < j → (ps.get i).rating ≤ (ps.get j).rating) ∧
    (qs.Pairwise (fun p q => p.rating ≤ q.rating) ∧
      ∀ i j : Fin qs.length, i < j → (qs.get i).rating ≤ (qs.get j).rating) := by
  obtain ⟨st, body, cr, hg, hu, hps⟩ := fetchWithTag_ok env tag ps h1
  obtain ⟨st2, body2, cr2, hg2, hu2, hqs⟩ := fetchWithTags_ok env tags qs h2
  subst hps hqs
  have hp := sortProblemsByRating_pairwise cr.result.problems
  have hq := sortProblemsByRating_pairwise cr2.result.problems
  exact ⟨⟨hp, fun i j hij => List.pairwise_iff_get.mp hp i j hij⟩,
    ⟨hq, fun i j hij => List.pairwise_iff_get.mp hq i j hij⟩⟩

/-- C1 witness: at the concrete healthy environment the single-tag fetch
succeeds and the theorem yields sortedness of its result. -/
theorem c1_fetch_sorted_by_rating_witness :
    (sortProblemsByRating wProblems).Pairwise (fun p q => p.rating ≤ q.rating) :=
  ((c1_fetch_sorted_by_rating envOk "dp" ["dp", "math"]
    (sortProblemsByRating wProblems) (sortProblemsByRating wProblems) rfl rfl).1).1

/-- C2: the exact-match fetches keep exactly the problems whose tag count
equals the number of requested tags (1 for the single-tag variant),
independent of which tags those are: membership in the output is
equivalent to membership in the fetched list plus the cardinality
condition alone. -/
theorem c2_only_keeps_tag_count (env : Env) (tag : String) (tags : List String)
    (ps qs : List Problem)
    (h1 : fetchCodeforcesProblemSetWithTag env tag = Except.ok ps)
    (h2 : fetchCodeforcesProblemSetWithTags env tags = Except.ok qs) :
    (fetchCodeforcesProblemSetWithTagOnly env tag =
        Except.ok (ps.filter (fun p => p.tags.length == 1)) ∧
      ∀ p : Problem, p ∈ ps.filter (fun p => p.tags.length == 1) ↔
        p ∈ ps ∧ p.tags.length = 1) ∧
    (fetchCodeforcesProblemSetWithTagsOnly env tags =
        Except.ok (qs.filter (fun p => p.tags.length == tags.length)) ∧
      ∀ p : Problem, p ∈ qs.filter (fun p => p.tags.length == tags.length) ↔
        p ∈ qs ∧ p.tags.length = tags.length) := by
  refine ⟨⟨?_, ?_⟩, ?_, ?_⟩
  · simp [fetchCodeforcesProblemSetWithTagOnly, h1]
  · intro p; simp [List.mem_filter]
  · simp [fetchCodeforcesProblemSetWithTagsOnly, h2]
  · intro p; simp [List.mem_filter]

/-- C2 witness: concretely, the single-tag-only fetch filters the sorted
list down to the problems with exactly one tag, and wp900 — whose only
tag `math` is NOT the requested tag `dp` — is retained. -/
theorem c2_only_keeps_tag_count_witness :
    fetchCodeforcesProblemSetWithTagOnly envOk "dp" =
      Except.ok ((sortProblemsByRating wProblems).filter (fun p => p.tags.length == 1)) ∧
    wp900 ∈ (sortProblemsByRating wProblems).filter (fun p => p.tags.length == 1) :=
  ⟨((c2_only_keeps_tag_count envOk "dp" ["dp"] (sortProblemsByRating wProblems)
      (sortProblemsByRating wProblems) rfl rfl).1).1,
   (((c2_only_keeps_tag_count envOk "dp" ["dp"] (sortProblemsByRating wProblems)
      (sortProblemsByRating wProblems) rfl rfl).1).2 wp900).mpr
     ⟨mem_sortProblemsByRating.mpr (by simp [wProblems]), by simp [wp900]⟩⟩

/-- C5: the upstream request URL is the base URL, the problemset method,
`?tags=`, then the tag text (single variant) or the tags joined with `;`
(multi variant); the empty tag yields an empty tags value; and the fetch
consults the transport only at that URL. -/
theorem c5_url_construction (tag : String) (tags : List String) (env1 env2 : Env) :
    problemsURLWithTag tag = CODEFORCES_BASE_URL ++ PROBLEMSET_METHOD ++ "?tags=" ++ tag ∧
    problemsURLWithTags tags =
      CODEFORCES_BASE_URL ++ PROBLEMSET_METHOD ++ "?tags=" ++ String.intercalate ";" tags ∧
    problemsURLWithTag "" = CODEFORCES_BASE_URL ++ PROBLEMSET_METHOD ++ "?tags=" ∧
    (env1.httpGet (problemsURLWithTag tag) = env2.httpGet (problemsURLWithTag tag) →
      env1.unmarshal = env2.unmarshal →
      fetchCodeforcesProblemSetWithTag env1 tag = fetchCodeforcesProblemSetWithTag env2 tag) ∧
    (env1.httpGet (problemsURLWithTags tags) = env2.httpGet (problemsURLWithTags tags) →
      env1.unmarshal = env2.unmarshal →
      fetchCodeforcesProblemSetWithTags env1 tags = fetchCodeforcesProblemSetWithTags env2 tags) := by
  refine ⟨rfl, rfl, by simp [problemsURLWithTag], ?_, ?_⟩
  · intro hg hu
    unfold fetchCodeforcesProblemSetWithTag
    rw [hg, hu]
  · intro hg hu
    unfold fetchCodeforcesProblemSetWithTags
    rw [hg, hu]

/-- C5 witness: the concrete URL for tag `dp`, and the dependence clause
applied to a pair of identical environments. -/
theorem c5_url_construction_witness :
    problemsURLWithTag "dp" = CODEFORCES_BASE_URL ++ PROBLEMSET_METHOD ++ "?tags=" ++ "dp" ∧
    fetchCodeforcesProblemSetWithTags envOk ["dp", "math"] =
      fetchCodeforcesProblemSetWithTags envOk ["dp", "math"] :=
  ⟨(c5_url_construction "dp" ["dp", "math"] envOk envOk).1,
   (c5_url_construction "dp" ["dp", "math"] envOk envOk).2.2.2.2 rfl rfl⟩

/-- C9: every request to /health is answered with status 200 and body
`ok`; the handler reads nothing from the request and consults no
upstream environment. -/
theorem c9_health_ok (r : Request) :
    healthHandler r = { statusCode := 200, body := "ok" } := rfl

/-- C6: the output of each exact-match fetch is an order-preserving
subsequence (a Sublist) of the corresponding sorted fetch result and is
itself sorted ascending by rating: sorting happens inside the fetch,
before filtering, and filtering preserves relative order. -/
theorem c6_only_sorted_sublist (env : Env) (tag : String) (tags : List String)
    (ps ps1 qs qs1 : List Problem)
    (h1 : fetchCodeforcesProblemSetWithTag env tag = Except.ok ps)
    (h2 : fetchCodeforcesProblemSetWithTagOnly env tag = Except.ok ps1)
    (h3 : fetchCodeforcesProblemSetWithTags env tags = Except.ok qs)
    (h4 : fetchCodeforcesProblemSetWithTagsOnly env tags = Except.ok qs1) :
    ps1.Sublist ps ∧ ps1.Pairwise (fun p q => p.rating ≤ q.rating) ∧
    qs1.Sublist qs ∧ qs1.Pairwise (fun p q => p.rating ≤ q.rating) := by
  have e1 : ps1 = ps.filter (fun p => p.tags.length == 1) := by
    have h := h2
    simp [fetchCodeforcesProblemSetWithTagOnly, h1] at h
    exact h.symm
  have e2 : qs1 = qs.filter (fun p => p.tags.length == tags.length) := by
    have h := h4
    simp [fetchCodeforcesProblemSetWithTagsOnly, h3] at h
    exact h.symm
  obtain ⟨st, body, cr, hg, hu, hps⟩ := fetchWithTag_ok env tag ps h1
  obtain ⟨st2, body2, cr2, hg2, hu2, hqs⟩ := fetchWithTags_ok env tags qs h3
  have pw1 : ps.Pairwise (fun p q => p.rating ≤ q.rating) := by
    rw [hps]; exact sortProblemsByRating_pairwise cr.result.problems
  have pw2 : qs.Pairwise (fun p q => p.rating ≤ q.rating) := by
    rw [hqs]; exact sortProblemsByRating_pairwise cr2.result.problems
  refine ⟨?_, ?_, ?_, ?_⟩
  · rw [e1]; exact List.filter_sublist ps
  · rw [e1]; exact List.Pairwise.sublist (List.filter_sublist ps) pw1
  · rw [e2]; exact List.filter_sublist qs
  · rw [e2]; exact List.Pairwise.sublist (List.filter_sublist qs) pw2

/-- C6 witness: at the healthy environment the single-tag-only result is
a sublist of the sorted single-tag result. -/
theorem c6_only_sorted_sublist_witness :
    ((sortProblemsByRating wProblems).filter (fun p => p.tags.length == 1)).Sublist
      (sortProblemsByRating wProblems) :=
  (c6_only_sorted_sublist envOk "dp" ["dp"] (sortProblemsByRating wProblems)
    ((sortProblemsByRating wProblems).filter (fun p => p.tags.length == 1))
    (sortProblemsByRating wProblems)
    ((sortProblemsByRating wProblems).filter (fun p => p.tags.length == ["dp"].length))
    rfl rfl rfl rfl).1

/-- C10: every problem a fetch operation outputs belongs, as a whole
structure (so field for field), to the decoded upstream list: the
pipeline only reorders (sort) and selects (filter). -/
theorem c10_output_from_upstream (env : Env) (tag : String) (tags : List String)
    (st st2 : Nat) (body body2 : String) (cr cr2 : CodeforcesResponse)
    (hg : env.httpGet (problemsURLWithTag tag) = HttpOutcome.response st body)
    (hu : env.unmarshal body = Except.ok cr)
    (hg2 : env.httpGet (problemsURLWithTags tags) = HttpOutcome.response st2 body2)
    (hu2 : env.unmarshal body2 = Except.ok cr2) :
    (fetchCodeforcesProblemSetWithTag env tag =
        Except.ok (sortProblemsByRating cr.result.problems) ∧
      sortProblemsByRating cr.result.problems ⊆ cr.result.problems) ∧
    (fetchCodeforcesProblemSetWithTagOnly env tag =
        Except.ok ((sortProblemsByRating cr.result.problems).filter
          (fun p => p.tags.length == 1)) ∧
      (sortProblemsByRating cr.result.problems).filter (fun p => p.tags.length == 1)
        ⊆ cr.result.problems) ∧
    (fetchCodeforcesProblemSetWithTags env tags =
        Except.ok (sortProblemsByRating cr2.result.problems) ∧
      sortProblemsByRating cr2.result.problems ⊆ cr2.result.problems) ∧
    (fetchCodeforcesProblemSetWithTagsOnly env tags =
        Except.ok ((sortProblemsByRating cr2.result.problems).filter
          (fun p => p.tags.length == tags.length)) ∧
      (sortProblemsByRating cr2.result.problems).filter
          (fun p => p.tags.length == tags.length)
        ⊆ cr2.result.problems) := by
  have f1 := fetchWithTag_eval env tag st body cr hg hu
  have f2 := fetchWithTags_eval env tags st2 body2 cr2 hg2 hu2
  have sub1 : sortProblemsByRating cr.result.problems ⊆ cr.result.problems :=
    fun _ hp => mem_sortProblemsByRating.mp hp
  have sub2 : sortProblemsByRating cr2.result.problems ⊆ cr2.result.problems :=
    fun _ hp => mem_sortProblemsByRating.mp hp
  refine ⟨⟨f1, sub1⟩, ⟨?_, fun _ hp => sub1 (List.mem_of_mem_filter hp)⟩,
    ⟨f2, sub2⟩, ⟨?_, fun _ hp => sub2 (List.mem_of_mem_filter hp)⟩⟩
  · simp [fetchCodeforcesProblemSetWithTagOnly, f1]
  · simp [fetchCodeforcesProblemSetWithTagsOnly, f2]

/-- C10 witness: concretely, the healthy single-tag fetch succeeds with
the sorted decoded list. -/
theorem c10_output_from_upstream_witness :
    fetchCodeforcesProblemSetWithTag envOk "dp" =
      Except.ok (sortProblemsByRating wProblems) :=
  (c10_output_from_upstream envOk "dp" ["dp"] 200 200 "body-ok" "body-ok"
    ⟨"OK", ⟨wProblems⟩⟩ ⟨"OK", ⟨wProblems⟩⟩ rfl rfl rfl rfl).1.1

/-- C8: the envelope status is decoded but never validated: whenever two
environments deliver decodable bodies whose decoded envelopes carry the
same result field (differing, for instance, only in the status field),
every fetch operation gives the same successful problem list in both. -/
theorem c8_status_field_ignored (env1 env2 : Env) (tag : String) (tags : List String)
    (st1 st2 st3 st4 : Nat) (b1 b2 b3 b4 : String) (cr1 cr2 cr3 cr4 : CodeforcesResponse)
    (hg1 : env1.httpGet (problemsURLWithTag tag) = HttpOutcome.response st1 b1)
    (hu1 : env1.unmarshal b1 = Except.ok cr1)
    (hg2 : env2.httpGet (problemsURLWithTag tag) = HttpOutcome.response st2 b2)
    (hu2 : env2.unmarshal b2 = Except.ok cr2)
    (hres : cr1.result = cr2.result)
    (hg3 : env1.httpGet (problemsURLWithTags tags) = HttpOutcome.response st3 b3)
    (hu3 : env1.unmarshal b3 = Except.ok cr3)
    (hg4 : env2.httpGet (problemsURLWithTags tags) = HttpOutcome.response st4 b4)
    (hu4 : env2.unmarshal b4 = Except.ok cr4)
    (hres2 : cr3.result = cr4.result) :
    (fetchCodeforcesProblemSetWithTag env1 tag =
        Except.ok (sortProblemsByRating cr1.result.problems) ∧
      fetchCodeforcesProblemSetWithTag env2 tag =
        Except.ok (sortProblemsByRating cr1.result.problems)) ∧
    (fetchCodeforcesProblemSetWithTags env1 tags =
        Except.ok (sortProblemsByRating cr3.result.problems) ∧
      fetchCodeforcesProblemSetWithTags env2 tags =
        Except.ok (sortProblemsByRating cr3.result.problems)) ∧
    fetchCodeforcesProblemSetWithTagOnly env1 tag =
      fetchCodeforcesProblemSetWithTagOnly env2 tag ∧
    fetchCodeforcesProblemSetWithTagsOnly env1 tags =
      fetchCodeforcesProblemSetWithTagsOnly env2 tags := by
  have f1 := fetchWithTag_eval env1 tag st1 b1 cr1 hg1 hu1
  have f2 := fetchWithTag_eval env2 tag st2 b2 cr2 hg2 hu2
  have f3 := fetchWithTags_eval env1 tags st3 b3 cr3 hg3 hu3
  have f4 := fetchWithTags_eval env2 tags st4 b4 cr4 hg4 hu4
  rw [← hres] at f2
  rw [← hres2] at f4
  refine ⟨⟨f1, f2⟩, ⟨f3, f4⟩, ?_, ?_⟩
  · simp [fetchCodeforcesProblemSetWithTagOnly, f1, f2]
  · simp [fetchCodeforcesProblemSetWithTagsOnly, f3, f4]

/-- C8 witness: two environments whose decoded envelopes differ in the
status field (OK versus FAILED) and in the raw body, with the same result
payload: both fetches succeed with the same sorted list. -/
theorem c8_status_field_ignored_witness :
    fetchCodeforcesProblemSetWithTag envOk "dp" =
      Except.ok (sortProblemsByRating wProblems) ∧
    fetchCodeforcesProblemSetWithTag envOkFailedStatus "dp" =
      Except.ok (sortProblemsByRating wProblems) :=
  (c8_status_field_ignored envOk envOkFailedStatus "dp" ["dp"]
    200 200 200 200 "body-ok" "body-failed-status" "body-ok" "body-failed-status"
    ⟨"OK", ⟨wProblems⟩⟩ ⟨"FAILED", ⟨wProblems⟩⟩ ⟨"OK", ⟨wProblems⟩⟩ ⟨"FAILED", ⟨wProblems⟩⟩
    rfl rfl rfl rfl rfl rfl rfl rfl rfl rfl).1

/-- C3 counterexample: env400 answers the single-tag URL with status 400
— not a 2xx code — and a body that still decodes (the shape the real API
produces on failed calls); the fetch nevertheless SUCCEEDS, returning the
decoded (empty) list, so a non-2xx upstream response does not fail with a
FetchError as claimed. -/
theorem c3_counterexample :
    env400.httpGet (problemsURLWithTag "dp") = HttpOutcome.response 400 "body-400" ∧
    (400 < 200 ∨ 299 < 400) ∧
    fetchCodeforcesProblemSetWithTag env400 "dp" = Except.ok [] := by
  refine ⟨rfl, by omega, ?_⟩
  simp [fetchCodeforcesProblemSetWithTag, env400, sortProblemsByRating]

/-- C3 amended: on transport failure (and on body-read failure) the fetch
fails with the underlying error; after ANY response, whatever its status
code, the outcome depends only on body decoding — decode failure
propagates the decode error, successful decode yields a success result.
The status code is never inspected, so a non-2xx response with a
decodable body yields success, not a FetchError. -/
theorem c3_amended (env : Env) (tag : String) (tags : List String) :
    ((∀ e, env.httpGet (problemsURLWithTag tag) = HttpOutcome.transportError e →
      fetchCodeforcesProblemSetWithTag env tag = Except.error e) ∧
     (∀ st e, env.httpGet (problemsURLWithTag tag) = HttpOutcome.readError st e →
      fetchCodeforcesProblemSetWithTag env tag = Except.error e) ∧
     (∀ st body e, env.httpGet (problemsURLWithTag tag) = HttpOutcome.response st body →
      env.unmarshal body = Except.error e →
      fetchCodeforcesProblemSetWithTag env tag = Except.error e) ∧
     (∀ st body cr, env.httpGet (problemsURLWithTag tag) = HttpOutcome.response st body →
      env.unmarshal body = Except.ok cr →
      fetchCodeforcesProblemSetWithTag env tag =
        Except.ok (sortProblemsByRating cr.result.problems))) ∧
    ((∀ e, env.httpGet (problemsURLWithTags tags) = HttpOutcome.transportError e →
      fetchCodeforcesProblemSetWithTags env tags = Except.error e) ∧
     (∀ st e, env.httpGet (problemsURLWithTags tags) = HttpOutcome.readError st e →
      fetchCodeforcesProblemSetWithTags env tags = Except.error e) ∧
     (∀ st body e, env.httpGet (problemsURLWithTags tags) = HttpOutcome.response st body →
      env.unmarshal body = Except.error e →
      fetchCodeforcesProblemSetWithTags env tags = Except.error e) ∧
     (∀ st body cr, env.httpGet (problemsURLWithTags tags) = HttpOutcome.response st body →
      env.unmarshal body = Except.ok cr →
      fetchCodeforcesProblemSetWithTags env tags =
        Except.ok (sortProblemsByRating cr.result.problems))) := by
  refine ⟨⟨?_, ?_, ?_, ?_⟩, ?_, ?_, ?_, ?_⟩
  · intro e hg; simp [fetchCodeforcesProblemSetWithTag, hg]
  · intro st e hg; simp [fetchCodeforcesProblemSetWithTag, hg]
  · intro st body e hg hu; simp [fetchCodeforcesProblemSetWithTag, hg, hu]
  · intro st body cr hg hu; exact fetchWithTag_eval env tag st body cr hg hu
  · intro e hg; simp [fetchCodeforcesProblemSetWithTags, hg]
  · intro st e hg; simp [fetchCodeforcesProblemSetWithTags, hg]
  · intro st body e hg hu; simp [fetchCodeforcesProblemSetWithTags, hg, hu]
  · intro st body cr hg hu; exact fetchWithTags_eval env tags st body cr hg hu

/-- C3 amended witness: with the transport down the fetch propagates the
transport error; with a decodable 400 response the fetch succeeds. -/
theorem c3_amended_witness :
    fetchCodeforcesProblemSetWithTag envDown "dp" =
      Except.error "dial tcp: connection refused" ∧
    fetchCodeforcesProblemSetWithTag env400 "dp" =
      Except.ok (sortProblemsByRating []) :=
  ⟨((c3_amended envDown "dp" ["dp"]).1).1 "dial tcp: connection refused" rfl,
   ((c3_amended env400 "dp" ["dp"]).1).2.2.2 400 "body-400" ⟨"FAILED", ⟨[]⟩⟩ rfl rfl⟩

set_option maxRecDepth 100000 in
/-- C4 counterexample: the sort the program concretely runs (Go
sort.Slice, pdqsort) maps c4input to c4output, where problem g (upstream
position 6) precedes problem a (upstream position 0) even though both
have rating 2000: equal-rating items do NOT keep their upstream relative
order. -/
theorem c4_counterexample :
    sortSliceByRating c4input = c4output ∧ ¬ tiesStable c4input c4output :=
  ⟨rfl, by decide⟩

set_option maxRecDepth 100000 in
/-- C4 amended: the Sort Stage output is ordered ascending by rating and
is a permutation of the upstream list, but ties are NOT broken stably:
sort.Slice guarantees no stability, and on the 13-problem list c4input it
reorders equal-rating problems. -/
theorem c4_amended :
    sortSliceByRating c4input = c4output ∧
    c4output.Pairwise (fun p q => p.rating ≤ q.rating) ∧
    (c4output.map Problem.name).Perm (c4input.map Problem.name) ∧
    ¬ tiesStable c4input c4output :=
  ⟨rfl, by decide, by decide, by decide⟩

/-- C7: for every problems handler, a fetch error makes the handler
answer 500 with the error text as body (http.Error appends a newline),
and a successful fetch makes it answer 200 with the JSON encoding of the
problems (given that encoding succeeds; for values decoded from JSON it
always does in Go, since only non-finite floats make Marshal fail and
JSON cannot carry them). -/
theorem c7_handler_responses (env : Env) (r : Request) :
    ((∀ e, fetchCodeforcesProblemSetWithTag env (r.queryGet "tag") = Except.error e →
      problemsByTagHandler env r = { statusCode := 500, body := e ++ "\n" }) ∧
     (∀ ps b, fetchCodeforcesProblemSetWithTag env (r.queryGet "tag") = Except.ok ps →
      env.encodeJson ps = Except.ok b →
      problemsByTagHandler env r = { statusCode := 200, body := b })) ∧
    ((∀ e, fetchCodeforcesProblemSetWithTags env ((r.queryGet "tags").splitOn ",") =
        Except.error e →
      problemsByTagsHandler env r = { statusCode := 500, body := e ++ "\n" }) ∧
     (∀ ps b, fetchCodeforcesProblemSetWithTags env ((r.queryGet "tags").splitOn ",") =
        Except.ok ps →
      env.encodeJson ps = Except.ok b →
      problemsByTagsHandler env r = { statusCode := 200, body := b })) ∧
    ((∀ e, fetchCodeforcesProblemSetWithTagOnly env (r.queryGet "tag") = Except.error e →
      problemsByTagOnlyHandler env r = { statusCode := 500, body := e ++ "\n" }) ∧
     (∀ ps b, fetchCodeforcesProblemSetWithTagOnly env (r.queryGet "tag") = Except.ok ps →
      env.encodeJson ps = Except.ok b →
      problemsByTagOnlyHandler env r = { statusCode := 200, body := b })) ∧
    ((∀ e, fetchCodeforcesProblemSetWithTagsOnly env ((r.queryGet "tags").splitOn ",") =
        Except.error e →
      problemsByTagsOnlyHandler env r = { statusCode := 500, body := e ++ "\n" }) ∧
     (∀ ps b, fetchCodeforcesProblemSetWithTagsOnly env ((r.queryGet "tags").splitOn ",") =
        Except.ok ps →
      env.encodeJson ps = Except.ok b →
      problemsByTagsOnlyHandler env r = { statusCode := 200, body := b })) := by
  refine ⟨⟨?_, ?_⟩, ⟨?_, ?_⟩, ⟨?_, ?_⟩, ⟨?_, ?_⟩⟩
  · intro e h; simp [problemsByTagHandler, h, httpError]
  · intro ps b h hb; simp [problemsByTagHandler, h, hb]
  · intro e h; simp [problemsByTagsHandler, h, httpError]
  · intro ps b h hb; simp [problemsByTagsHandler, h, hb]
  · intro e h; simp [problemsByTagOnlyHandler, h, httpError]
  · intro ps b h hb; simp [problemsByTagOnlyHandler, h, hb]
  · intro e h; simp [problemsByTagsOnlyHandler, h, httpError]
  · intro ps b h hb; simp [problemsByTagsOnlyHandler, h, hb]

/-- C7 witness: with the transport down the single-tag handler answers
500 with the error text; with the healthy environment the multi-tag-only
handler answers 200 with the encoded body. -/
theorem c7_handler_responses_witness :
    problemsByTagHandler envDown reqDp =
      { statusCode := 500, body := "dial tcp: connection refused" ++ "\n" } ∧
    problemsByTagsOnlyHandler envOk reqDp = { statusCode := 200, body := "[json]" } :=
  ⟨((c7_handler_responses envDown reqDp).1).1 "dial tcp: connection refused" rfl,
   ((c7_handler_responses envOk reqDp).2.2.2).2
     ((sortProblemsByRating wProblems).filter
       (fun p => p.tags.length == ("dp".splitOn ",").length))
     "[json]" rfl rfl⟩

end ProblemSvc
